import Mathlib

/-!
# Verification of the `nflow` plugin (`plugin_nflow.py`)

A shallow embedding of `synthcity/plugins/generic/plugin_nflow.py`:

* the sampling loop `_internal_generate` inside `NormalizingFlowsPlugin._generate`
  (the loop state, the retry budget, the per-batch draws and silent failure
  absorption);
* the constructor `NormalizingFlowsPlugin.__init__` (field storage and the
  `patience_metric` defaulting; the `@validate_arguments` decorator performs
  only pydantic *type* validation, which cannot fail for inputs that already
  have the annotated types, and the body contains no `raise`);
* the static `hyperparameter_space` declaration.

Machine arithmetic: all the Python integers involved are unbounded (`int`),
so they are embedded as `ℕ`/`ℤ`.  The expression `count / batch + 1` in the
source is Python 3 *true division*, producing a float; for the magnitudes the
loop manipulates the IEEE-754 double comparison `retries < count / batch + 1`
agrees with the exact rational comparison (the fractional part of
`count / batch` is a multiple of `1 / batch ≥ 1 / 5000`, far above the
rounding error), so the budget is embedded as an exact rational (`ℚ`).
-/

/-- The trained generative model seen by the sampling loop
(`self.model.generate`).  Successive calls are numbered by a call index:
`draw k n` is the table returned by the `k`-th call when asked for `n` rows,
and `ok k` tells whether the `k`-th call succeeds or raises.  The collaborator
contract (`sample(count) -> table of count rows`) is the field `sample_len`. -/
structure GenModel (α : Type) where
  draw : ℕ → ℕ → List α
  ok : ℕ → Bool
  sample_len : ∀ k n, (draw k n).length = n

/-- The mutable local state of the `while` loop in `_internal_generate`:
`result` is the accumulated table, `count` the remaining row count, `batch`
the current batch variable, `retries` the retry counter, `callIdx` the index
of the next model call, and `reqs` the trace of batch sizes requested from
the model inside the loop (one entry per loop iteration). -/
structure LoopState (α : Type) where
  result : List α
  count : ℕ
  batch : ℕ
  retries : ℕ
  callIdx : ℕ
  reqs : List ℕ

/-- `max_retries = count / batch + 1` from the source, with `/` Python's true
division (exact rational here) and `batch = min(5000, count)` the initial
batch size. -/
def maxRetriesQ (count : ℕ) : ℚ :=
  (count : ℚ) / ((min 5000 count : ℕ) : ℚ) + 1

/-- The number of loop iterations the retry budget permits: the retry guard
`retries < max_retries` holds exactly for `retries < budgetIters count`
(see `lt_maxRetriesQ_iff`). -/
def budgetIters (count : ℕ) : ℕ := ⌈maxRetriesQ count⌉₊

/-- The body of `while count > 0 and retries < max_retries:` from
`_internal_generate`.  Each iteration sets `batch = min(batch, count)`, calls
`self.model.generate(batch)` once (appending the rows on success, silently
discarding the `BaseException` on failure), then does `count -= batch` and
`retries += 1` regardless of the outcome. -/
def genLoop (m : GenModel α) (maxRetries : ℚ) (s : LoopState α) : LoopState α :=
  if h : 0 < s.count ∧ (s.retries : ℚ) < maxRetries then
    let b := min s.batch s.count
    genLoop m maxRetries
      { result := if m.ok s.callIdx then s.result ++ m.draw s.callIdx b else s.result
        count := s.count - b
        batch := b
        retries := s.retries + 1
        callIdx := s.callIdx + 1
        reqs := s.reqs ++ [b] }
  else s
termination_by ⌈maxRetries⌉₊ - s.retries
decreasing_by
  have hr : s.retries < ⌈maxRetries⌉₊ := Nat.lt_ceil.mpr h.2
  omega

/-- The outcome of one call to `_internal_generate`:
* `firstDrawFailed` — the unguarded first `self.model.generate(1)` raised and
  the exception propagated;
* `divByZero` — the `ZeroDivisionError` from `count / batch` when
  `batch = min(5000, count) = 0` (only possible for `count = 0`);
* `ok s` — normal return, with `s` the final loop state. -/
inductive GenResult (α : Type) where
  | firstDrawFailed : GenResult α
  | divByZero : GenResult α
  | ok : LoopState α → GenResult α

/-- `_internal_generate(count)` from the source: draw one row (a failure here
propagates), compute `max_retries = count / batch + 1` (raising
`ZeroDivisionError` when `batch = 0`, i.e. `count = 0`), set `count -= 1`,
`retries = 0`, then run the retry loop. -/
def internalGenerate (m : GenModel α) (count : ℕ) : GenResult α :=
  if m.ok 0 = false then .firstDrawFailed
  else if min 5000 count = 0 then .divByZero
  else .ok (genLoop m (maxRetriesQ count)
    { result := m.draw 0 1
      count := count - 1
      batch := min 5000 count
      retries := 0
      callIdx := 1
      reqs := [] })

/-- How many `self.model.generate` calls `_internal_generate(count)` made:
the mandatory first single-row call always happens (it is the call that fails
in the `firstDrawFailed` case, and it has already returned when the
`ZeroDivisionError` of the `divByZero` case is raised on the next line);
afterwards each loop iteration makes exactly one call, so the final call
index of the loop state counts the calls. -/
def callsMade : GenResult α → ℕ
  | .firstDrawFailed => 1
  | .divByZero => 1
  | .ok s => s.callIdx

/-- The sequence of batch sizes the loop requests, mirroring the loop's own
update `batch = min(batch, count); count -= batch`. -/
def sched (batch c : ℕ) : List ℕ :=
  if h : 0 < batch ∧ 0 < c then
    min batch c :: sched (min batch c) (c - min batch c)
  else []
termination_by c
decreasing_by
  have h1 : 0 < min batch c := lt_min h.1 h.2
  have h2 : min batch c ≤ c := min_le_right _ _
  omega

/-- The batch-size sequence as the specification words it: each draw requests
`min(initial_batch, remaining_count)` rows, with `B` the *initial* batch
size.  `sched_eq_schedSpec` shows the loop's sequence coincides with it. -/
def schedSpec (B c : ℕ) : List ℕ :=
  if h : 0 < B ∧ 0 < c then
    min B c :: schedSpec B (c - min B c)
  else []
termination_by c
decreasing_by
  have h1 : 0 < min B c := lt_min h.1 h.2
  have h2 : min B c ≤ c := min_le_right _ _
  omega

/-- The rows the model contributes along a sequence of batch sizes starting
at call index `k`: a failed call contributes nothing, a successful call of
size `b` contributes `draw k b`. -/
def drawsAlong (m : GenModel α) : ℕ → List ℕ → List α
  | _, [] => []
  | k, b :: bs => (if m.ok k then m.draw k b else []) ++ drawsAlong m (k + 1) bs

/-- The loop's batch-size sequence is the one induced by the *initial* batch
size: updating `batch = min(batch, count)` in place never changes the
requested sizes, because the remaining count only shrinks. -/
theorem sched_eq_schedSpec (c : ℕ) :
    ∀ batch B, min batch c = min B c → sched batch c = schedSpec B c := by
  induction c using Nat.strong_induction_on with
  | _ c ih =>
    intro batch B hmin
    rw [sched, schedSpec]
    by_cases hb : 0 < batch ∧ 0 < c
    · have hminpos : 0 < min batch c := lt_min hb.1 hb.2
      have hB : 0 < B ∧ 0 < c := by
        refine ⟨?_, hb.2⟩
        have : 0 < min B c := hmin ▸ hminpos
        omega
      rw [dif_pos hb, dif_pos hB, hmin]
      congr 1
      refine ih (c - min B c) (by omega) _ _ ?_
      have hle : c - min B c ≤ c := by omega
      calc min (min B c) (c - min B c)
          = min B (min c (c - min B c)) := by rw [min_assoc]
        _ = min B (c - min B c) := by rw [min_eq_right hle]
    · rw [dif_neg hb]
      by_cases hc : 0 < c
      · have hbatch : batch = 0 := by omega
        have : min B c = 0 := by
          rw [← hmin, hbatch]; simp
        have hB0 : B = 0 := by omega
        rw [dif_neg]; omega
      · rw [dif_neg]; omega

/-- The requested batch sizes sum to the remaining count they are drawn
from: the loop decrements `count` by the attempted batch size every
iteration, so it drives `count` exactly to `0`. -/
theorem schedSpec_sum (c : ℕ) : ∀ B, 0 < B → (schedSpec B c).sum = c := by
  induction c using Nat.strong_induction_on with
  | _ c ih =>
    intro B hB
    rw [schedSpec]
    by_cases h : 0 < B ∧ 0 < c
    · rw [dif_pos h]
      have hminle : min B c ≤ c := min_le_right _ _
      have hminpos : 0 < min B c := lt_min h.1 h.2
      simp only [List.sum_cons]
      rw [ih (c - min B c) (by omega) B hB]
      omega
    · rw [dif_neg h]
      simp only [List.sum_nil]
      omega

/-- The number of loop iterations needed to exhaust a remaining count `c`
with batch size `B`: `⌈c / B⌉`, i.e. `(c - 1) / B + 1` for positive `c`. -/
theorem schedSpec_length (c : ℕ) :
    ∀ B, 0 < B → (schedSpec B c).length = if c = 0 then 0 else (c - 1) / B + 1 := by
  induction c using Nat.strong_induction_on with
  | _ c ih =>
    intro B hB
    rw [schedSpec]
    by_cases h : 0 < B ∧ 0 < c
    · rw [dif_pos h, if_neg (by omega)]
      simp only [List.length_cons]
      rcases le_or_lt c B with hcB | hBc
      · have hmin : min B c = c := min_eq_right hcB
        rw [hmin]
        have : c - c = 0 := by omega
        rw [this, ih 0 (by omega) B hB, if_pos rfl]
        have : (c - 1) / B = 0 := Nat.div_eq_of_lt (by omega)
        omega
      · have hmin : min B c = B := min_eq_left (by omega)
        rw [hmin, ih (c - B) (by omega) B hB, if_neg (by omega)]
        have hdiv : (c - B - 1 + B) / B = (c - B - 1) / B + 1 := Nat.add_div_right _ hB
        have heq : c - B - 1 + B = c - 1 := by omega
        rw [heq] at hdiv
        omega
    · rw [dif_neg h, if_pos (by omega)]
      rfl

/-- Characterization of a full run of the retry loop when the retry budget
covers every scheduled iteration (which `_internal_generate` always
guarantees, see the theorems below): the loop drives the remaining count to
`0`, uses exactly one retry and one model call per scheduled batch, records
exactly the scheduled batch sizes, and appends exactly the rows of the
successful draws. -/
theorem genLoop_run (m : GenModel α) (q : ℚ) (c : ℕ) :
    ∀ s : LoopState α, s.count = c → 0 < s.batch →
      (∀ i < (sched s.batch s.count).length, ((s.retries + i : ℕ) : ℚ) < q) →
      ∃ bf, genLoop m q s =
        { result := s.result ++ drawsAlong m s.callIdx (sched s.batch s.count)
          count := 0
          batch := bf
          retries := s.retries + (sched s.batch s.count).length
          callIdx := s.callIdx + (sched s.batch s.count).length
          reqs := s.reqs ++ sched s.batch s.count } := by
  induction c using Nat.strong_induction_on with
  | _ c ih =>
    intro s hc hb hbud
    by_cases hpos : 0 < s.count
    · have hsched : sched s.batch s.count =
          min s.batch s.count ::
            sched (min s.batch s.count) (s.count - min s.batch s.count) := by
        rw [sched, dif_pos ⟨hb, hpos⟩]
      have hret : (s.retries : ℚ) < q := by
        have h0 := hbud 0 (by rw [hsched]; simp)
        simpa using h0
      rw [genLoop, dif_pos ⟨hpos, hret⟩]
      simp only []
      have hminpos : 0 < min s.batch s.count := lt_min hb hpos
      have hminle : min s.batch s.count ≤ s.count := min_le_right _ _
      obtain ⟨bf, hrec⟩ := ih (s.count - min s.batch s.count) (by omega)
        { result := if m.ok s.callIdx then s.result ++ m.draw s.callIdx (min s.batch s.count)
            else s.result
          count := s.count - min s.batch s.count
          batch := min s.batch s.count
          retries := s.retries + 1
          callIdx := s.callIdx + 1
          reqs := s.reqs ++ [min s.batch s.count] }
        rfl hminpos
        (by
          intro i hi
          dsimp only at hi
          have hlen : (sched s.batch s.count).length =
              (sched (min s.batch s.count) (s.count - min s.batch s.count)).length + 1 := by
            rw [hsched]; simp
          have h1 := hbud (i + 1) (by omega)
          have : s.retries + (i + 1) = s.retries + 1 + i := by omega
          rwa [this] at h1)
      refine ⟨bf, ?_⟩
      rw [hrec, hsched]
      by_cases hok : m.ok s.callIdx <;>
        simp [hok, drawsAlong, List.append_assoc] <;> omega
    · have hc0 : s.count = 0 := by omega
      rw [genLoop, dif_neg (by omega)]
      refine ⟨s.batch, ?_⟩
      have hsched : sched s.batch s.count = [] := by
        rw [sched, dif_neg (by omega)]
      rw [hsched]
      cases s with
      | mk result count batch retries callIdx reqs =>
        simp only [drawsAlong, List.append_nil] at *
        simp [hc0]

/-- The retry guard `retries < max_retries` of the loop holds exactly for the
first `budgetIters count` retry values. -/
theorem lt_maxRetriesQ_iff (count r : ℕ) :
    (r : ℚ) < maxRetriesQ count ↔ r < budgetIters count :=
  Iff.symm Nat.lt_ceil

/-- Exact value of `⌈a / b + 1⌉` for natural `a`, positive natural `b` and
true (rational) division: `a / b + 1` when `b` divides `a`, and
`a / b + 2` otherwise (with `/` on the right natural floor division). -/
theorem ceil_ratio_eq (a b : ℕ) (hb : 0 < b) :
    ⌈(a : ℚ) / (b : ℚ) + 1⌉₊ = a / b + if a % b = 0 then 1 else 2 := by
  have hb' : (0 : ℚ) < (b : ℚ) := by exact_mod_cast hb
  by_cases h : a % b = 0
  · have hdvd : b ∣ a := Nat.dvd_of_mod_eq_zero h
    have hcast : ((a / b : ℕ) : ℚ) = (a : ℚ) / (b : ℚ) :=
      Nat.cast_div hdvd (by positivity)
    rw [if_pos h, ← hcast,
      show ((a / b : ℕ) : ℚ) + 1 = (((a / b + 1 : ℕ)) : ℚ) by push_cast; ring]
    exact Nat.ceil_natCast _
  · rw [if_neg h]
    have hmod := Nat.div_add_mod a b
    have hmodQ : (b : ℚ) * ((a / b : ℕ) : ℚ) + ((a % b : ℕ) : ℚ) = (a : ℚ) := by
      exact_mod_cast hmod
    have hmodlt : ((a % b : ℕ) : ℚ) < (b : ℚ) := by
      exact_mod_cast Nat.mod_lt _ hb
    have hmodpos : (0 : ℚ) < ((a % b : ℕ) : ℚ) := by
      exact_mod_cast Nat.pos_of_ne_zero h
    have hlow : ((a / b + 1 : ℕ) : ℚ) < (a : ℚ) / (b : ℚ) + 1 := by
      push_cast
      have hx : ((a / b : ℕ) : ℚ) < (a : ℚ) / (b : ℚ) := by
        rw [lt_div_iff₀ hb']
        nlinarith [hmodQ, hmodpos]
      linarith
    have hhigh : (a : ℚ) / (b : ℚ) + 1 ≤ ((a / b + 2 : ℕ) : ℚ) := by
      push_cast
      have hx : (a : ℚ) / (b : ℚ) ≤ ((a / b : ℕ) : ℚ) + 1 := by
        rw [div_le_iff₀ hb']
        nlinarith [hmodQ, hmodlt]
      linarith
    have h1 : a / b + 1 < ⌈(a : ℚ) / (b : ℚ) + 1⌉₊ := Nat.lt_ceil.mpr hlow
    have h2 : ⌈(a : ℚ) / (b : ℚ) + 1⌉₊ ≤ a / b + 2 := Nat.ceil_le.mpr hhigh
    omega

/-- The retry budget permits `count / batch + 1` iterations when the initial
batch size divides `count`, and `count / batch + 2` iterations otherwise
(`/` being floor division): because the source computes `max_retries` with
Python true division, not floor division. -/
theorem budgetIters_eq (count : ℕ) (h : 1 ≤ count) :
    budgetIters count =
      count / (min 5000 count) + if count % (min 5000 count) = 0 then 1 else 2 := by
  unfold budgetIters maxRetriesQ
  exact ceil_ratio_eq count (min 5000 count) (by omega)

/-- The loop needs at most `⌊count / initial_batch⌋ + 1` iterations to drive
the remaining count to zero. -/
theorem schedLen_le (N : ℕ) (hN : 1 ≤ N) :
    (schedSpec (min 5000 N) (N - 1)).length ≤ N / (min 5000 N) + 1 := by
  have hB : 0 < min 5000 N := by omega
  rw [schedSpec_length (N - 1) (min 5000 N) hB]
  by_cases h1 : N - 1 = 0
  · simp [h1]
  · rw [if_neg h1]
    have : (N - 1 - 1) / (min 5000 N) ≤ N / (min 5000 N) :=
      Nat.div_le_div_right (by omega)
    omega

/-- `⌊count / initial_batch⌋ + 1` iterations are always within the actual
retry budget. -/
theorem floor_budget_le (N : ℕ) (hN : 1 ≤ N) :
    N / (min 5000 N) + 1 ≤ budgetIters N := by
  rw [budgetIters_eq N hN]
  split <;> omega

/-- Full characterization of a successful `_internal_generate(count)` run for
`count ≥ 1`: the first draw succeeds, the budget never cuts the loop short,
the remaining count is driven to `0`, the loop performs exactly one retry and
one model call per scheduled batch, records exactly the scheduled batch sizes
`min(initial_batch, remaining)`, and returns the first row followed by the
rows of every successful draw. -/
theorem internalGenerate_spec (m : GenModel α) (N : ℕ) (hN : 1 ≤ N)
    (h0 : m.ok 0 = true) :
    ∃ s, internalGenerate m N = GenResult.ok s ∧
      s.count = 0 ∧
      s.retries = (schedSpec (min 5000 N) (N - 1)).length ∧
      s.callIdx = 1 + (schedSpec (min 5000 N) (N - 1)).length ∧
      s.reqs = schedSpec (min 5000 N) (N - 1) ∧
      s.result = m.draw 0 1 ++ drawsAlong m 1 (schedSpec (min 5000 N) (N - 1)) := by
  have hB : 0 < min 5000 N := by omega
  have hsch : sched (min 5000 N) (N - 1) = schedSpec (min 5000 N) (N - 1) :=
    sched_eq_schedSpec (N - 1) _ _ rfl
  obtain ⟨bf, hrun⟩ := genLoop_run m (maxRetriesQ N) (N - 1)
    { result := m.draw 0 1
      count := N - 1
      batch := min 5000 N
      retries := 0
      callIdx := 1
      reqs := [] }
    rfl hB
    (by
      intro i hi
      dsimp only at hi
      rw [hsch] at hi
      have hle := schedLen_le N hN
      have hfb := floor_budget_le N hN
      exact (lt_maxRetriesQ_iff N (0 + i)).mpr (by omega))
  dsimp only at hrun
  rw [hsch] at hrun
  simp only [Nat.zero_add, List.nil_append] at hrun
  refine ⟨{ result := m.draw 0 1 ++ drawsAlong m 1 (schedSpec (min 5000 N) (N - 1))
            count := 0
            batch := bf
            retries := (schedSpec (min 5000 N) (N - 1)).length
            callIdx := 1 + (schedSpec (min 5000 N) (N - 1)).length
            reqs := schedSpec (min 5000 N) (N - 1) }, ?_, rfl, rfl, rfl, rfl, rfl⟩
  unfold internalGenerate
  rw [if_neg (by simp [h0]), if_neg (by omega), hrun]

/-- When every model call succeeds, the rows contributed along a batch-size
sequence number exactly the sum of the requested sizes. -/
theorem drawsAlong_length_allOk (m : GenModel α) (hok : m.ok = fun _ => true) :
    ∀ bs k, (drawsAlong m k bs).length = bs.sum := by
  intro bs
  induction bs with
  | nil => intro k; simp [drawsAlong]
  | cons b bs ih =>
    intro k
    simp [drawsAlong, hok, m.sample_len, ih]

/-- When every model call after the first (index `0`) fails, the loop
contributes no rows at all. -/
theorem drawsAlong_eq_nil (m : GenModel α) (hok : m.ok = fun k => decide (k = 0)) :
    ∀ bs k, 1 ≤ k → drawsAlong m k bs = [] := by
  intro bs
  induction bs with
  | nil => intro k _; rfl
  | cons b bs ih =>
    intro k hk
    have hf : m.ok k = false := by
      rw [hok]
      simp
      omega
    simp [drawsAlong, hf, ih (k + 1) (by omega)]

/-- A model whose calls all succeed, drawing rows of zeros. -/
def mAllOk : GenModel ℕ where
  draw := fun _ n => List.replicate n 0
  ok := fun _ => true
  sample_len := by intro k n; simp

/-- A model whose first call (index `0`) succeeds and whose later calls all
fail. -/
def mFirstOnly : GenModel ℕ where
  draw := fun _ n => List.replicate n 0
  ok := fun k => decide (k = 0)
  sample_len := by intro k n; simp

/-- A model whose calls all fail. -/
def mDead : GenModel ℕ where
  draw := fun _ n => List.replicate n 0
  ok := fun _ => false
  sample_len := by intro k n; simp

/-- C1, counterexample.  At `count = 5001` (so `initial_batch = 5000`, which
does not divide `count`) the claimed integer budget `⌊count/batch⌋ + 1` is
`2`, but the retry value `2` still satisfies the loop's actual guard
`retries < max_retries` — the source computes `max_retries` with true
division, so the budget permits `3` iterations, not `2`. -/
theorem budget_floor_counterexample :
    5001 % (min 5000 5001) ≠ 0 ∧
    5001 / (min 5000 5001) + 1 = 2 ∧
    ((2 : ℕ) : ℚ) < maxRetriesQ 5001 ∧
    budgetIters 5001 ≠ 5001 / (min 5000 5001) + 1 := by
  have h1 : (min 5000 5001 : ℕ) = 5000 := by norm_num
  have h2 : maxRetriesQ 5001 = 5001 / 5000 + 1 := by
    rw [maxRetriesQ, h1]; norm_num
  have h3 : budgetIters 5001 = 3 := by
    rw [budgetIters_eq 5001 (by norm_num), h1]
    norm_num
  refine ⟨by norm_num, by norm_num, ?_, by rw [h3]; norm_num⟩
  rw [h2]; norm_num

/-- C1, amended.  The retry budget is `count / initial_batch + 1` under
*true* (exact) division, computed once from the original count and initial
batch and never changed; the loop runs only while `retries` is strictly
below it.  The number of iterations the budget permits is
`⌊count/batch⌋ + 1` when the initial batch divides `count` and
`⌊count/batch⌋ + 2` otherwise. -/
theorem budget_amended (count : ℕ) (h : 1 ≤ count) :
    maxRetriesQ count = (count : ℚ) / ((min 5000 count : ℕ) : ℚ) + 1 ∧
    budgetIters count =
      count / (min 5000 count) +
        (if count % (min 5000 count) = 0 then 1 else 2) ∧
    (∀ (m : GenModel ℕ) (s : LoopState ℕ),
      ¬ ((s.retries : ℚ) < maxRetriesQ count) →
        genLoop m (maxRetriesQ count) s = s) := by
  refine ⟨rfl, budgetIters_eq count h, ?_⟩
  intro m s hs
  rw [genLoop, dif_neg (by tauto)]

/-- C1, witness for the amended theorem at `count = 5001`. -/
theorem budget_amended_witness :
    maxRetriesQ 5001 = (5001 : ℚ) / ((min 5000 5001 : ℕ) : ℚ) + 1 ∧
    budgetIters 5001 =
      5001 / (min 5000 5001) + (if 5001 % (min 5000 5001) = 0 then 1 else 2) ∧
    genLoop mAllOk (maxRetriesQ 5001) ⟨[], 5, 5, 7, 1, []⟩ = ⟨[], 5, 5, 7, 1, []⟩ := by
  obtain ⟨h1, h2, h3⟩ := budget_amended 5001 (by norm_num)
  refine ⟨h1, h2, h3 mAllOk ⟨[], 5, 5, 7, 1, []⟩ ?_⟩
  rw [maxRetriesQ]
  norm_num

/-- C2.  For `count = N ≥ 1`, if every draw succeeds the sampling loop
returns exactly `N` rows, every batch drawn inside the loop has size
`min(initial_batch, remaining_count)` with `initial_batch = min(5000, N)`,
and the number of loop iterations used is at most `⌊N/initial_batch⌋ + 1`. -/
theorem sampling_all_success (m : GenModel ℕ) (N : ℕ) (hN : 1 ≤ N)
    (hok : m.ok = fun _ => true) :
    ∃ s, internalGenerate m N = GenResult.ok s ∧
      s.result.length = N ∧
      s.reqs = schedSpec (min 5000 N) (N - 1) ∧
      s.retries ≤ N / (min 5000 N) + 1 := by
  have h0 : m.ok 0 = true := by rw [hok]
  obtain ⟨s, hs, hc, hr, hk, hq, hres⟩ := internalGenerate_spec m N hN h0
  refine ⟨s, hs, ?_, hq, ?_⟩
  · rw [hres]
    rw [List.length_append, m.sample_len,
      drawsAlong_length_allOk m hok _ 1,
      schedSpec_sum (N - 1) (min 5000 N) (by omega)]
    omega
  · rw [hr]
    exact schedLen_le N hN

/-- C2, witness at `N = 3` with the all-succeeding model. -/
theorem sampling_all_success_witness :
    ∃ s, internalGenerate mAllOk 3 = GenResult.ok s ∧
      s.result.length = 3 ∧
      s.reqs = schedSpec (min 5000 3) (3 - 1) ∧
      s.retries ≤ 3 / (min 5000 3) + 1 :=
  sampling_all_success mAllOk 3 (by norm_num) rfl

/-- C3.  For every `count ≥ 1`, if the mandatory first single-row draw
succeeds and every draw inside the loop fails, the loop returns exactly the
one first-drawn row, raises nothing, and terminates within the claimed
budget; every iteration still decrements the remaining count by the
attempted batch size (driving it to `0`, the batch trace being the full
schedule) and increments `retries` by one per iteration. -/
theorem sampling_all_fail_after_first (m : GenModel ℕ) (N : ℕ) (hN : 1 ≤ N)
    (hok : m.ok = fun k => decide (k = 0)) :
    ∃ s, internalGenerate m N = GenResult.ok s ∧
      s.result = m.draw 0 1 ∧
      s.result.length = 1 ∧
      s.reqs = schedSpec (min 5000 N) (N - 1) ∧
      s.retries = s.reqs.length ∧
      s.count = (N - 1) - s.reqs.sum ∧
      s.retries ≤ N / (min 5000 N) + 1 := by
  have h0 : m.ok 0 = true := by rw [hok]; simp
  obtain ⟨s, hs, hc, hr, hk, hq, hres⟩ := internalGenerate_spec m N hN h0
  have hres1 : s.result = m.draw 0 1 := by
    rw [hres, drawsAlong_eq_nil m hok _ 1 (le_refl 1), List.append_nil]
  refine ⟨s, hs, hres1, ?_, hq, ?_, ?_, ?_⟩
  · rw [hres1, m.sample_len]
  · rw [hr, hq]
  · rw [hc, hq, schedSpec_sum (N - 1) (min 5000 N) (by omega)]
    omega
  · rw [hr]
    exact schedLen_le N hN

/-- C3, witness at `N = 3` with the model that fails after the first call. -/
theorem sampling_all_fail_after_first_witness :
    ∃ s, internalGenerate mFirstOnly 3 = GenResult.ok s ∧
      s.result = mFirstOnly.draw 0 1 ∧
      s.result.length = 1 ∧
      s.reqs = schedSpec (min 5000 3) (3 - 1) ∧
      s.retries = s.reqs.length ∧
      s.count = (3 - 1) - s.reqs.sum ∧
      s.retries ≤ 3 / (min 5000 3) + 1 :=
  sampling_all_fail_after_first mFirstOnly 3 (by norm_num) rfl

/-- C6.  For `count ≥ 1` the sampling loop raises for exactly one kind of
sampling failure: a failure of the very first single-row draw propagates,
while any pattern of failures inside the subsequent loop still returns
normally. -/
theorem first_draw_failure_propagates (m : GenModel α) (N : ℕ) (hN : 1 ≤ N) :
    (internalGenerate m N = GenResult.firstDrawFailed ↔ m.ok 0 = false) ∧
    (m.ok 0 = true → ∃ s, internalGenerate m N = GenResult.ok s) := by
  constructor
  · constructor
    · intro h
      cases hh : m.ok 0 with
      | false => rfl
      | true =>
        obtain ⟨s, hs, _⟩ := internalGenerate_spec m N hN hh
        rw [hs] at h
        exact GenResult.noConfusion h
    · intro h
      unfold internalGenerate
      rw [if_pos h]
  · intro h0
    obtain ⟨s, hs, _⟩ := internalGenerate_spec m N hN h0
    exact ⟨s, hs⟩

/-- C6, witness: a dead model (first call fails) propagates; a model whose
loop draws all succeed returns normally. -/
theorem first_draw_failure_witness :
    (internalGenerate mDead 2 = GenResult.firstDrawFailed ↔ mDead.ok 0 = false) ∧
    (∃ s, internalGenerate mAllOk 2 = GenResult.ok s) :=
  ⟨(first_draw_failure_propagates mDead 2 (by norm_num)).1,
   (first_draw_failure_propagates mAllOk 2 (by norm_num)).2 rfl⟩

/-- C7.  For `count = 1` the loop body is never entered: the single mandatory
draw is performed (one model call in total) and its row is returned verbatim,
with zero retries used and no batch requested inside the loop. -/
theorem single_row_request (m : GenModel α) (h0 : m.ok 0 = true) :
    internalGenerate m 1 = GenResult.ok ⟨m.draw 0 1, 0, 1, 0, 1, []⟩ ∧
    callsMade (internalGenerate m 1) = 1 := by
  have h : internalGenerate m 1 = GenResult.ok ⟨m.draw 0 1, 0, 1, 0, 1, []⟩ := by
    unfold internalGenerate
    rw [if_neg (by simp [h0]), if_neg (by norm_num), genLoop, dif_neg (by simp)]
    norm_num
  exact ⟨h, by rw [h]; rfl⟩

/-- C7, witness with the all-succeeding model. -/
theorem single_row_request_witness :
    internalGenerate mAllOk 1 = GenResult.ok ⟨mAllOk.draw 0 1, 0, 1, 0, 1, []⟩ ∧
    callsMade (internalGenerate mAllOk 1) = 1 :=
  single_row_request mAllOk rfl

/-- C9.  For every `count = N ≥ 2` (and any pattern of loop-draw successes
and failures), the loop exits because the remaining count reaches `0`, after
exactly `⌈(N - 1) / min(5000, N)⌉ = (N - 2) / min(5000, N) + 1` iterations,
and never because the budget is exhausted: the number of iterations used is
strictly below the number the retry guard permits. -/
theorem loop_exits_by_count (m : GenModel α) (N : ℕ) (hN : 2 ≤ N)
    (h0 : m.ok 0 = true) :
    ∃ s, internalGenerate m N = GenResult.ok s ∧
      s.count = 0 ∧
      s.retries = (N - 2) / (min 5000 N) + 1 ∧
      s.retries < budgetIters N := by
  obtain ⟨s, hs, hc, hr, hk, hq, hres⟩ := internalGenerate_spec m N (by omega) h0
  have hB : 0 < min 5000 N := by omega
  have hlen : (schedSpec (min 5000 N) (N - 1)).length = (N - 2) / (min 5000 N) + 1 := by
    rw [schedSpec_length (N - 1) (min 5000 N) hB, if_neg (by omega)]
    have he : N - 1 - 1 = N - 2 := by omega
    rw [he]
  refine ⟨s, hs, hc, by rw [hr, hlen], ?_⟩
  rw [hr, hlen, budgetIters_eq N (by omega)]
  by_cases hmod : N % (min 5000 N) = 0
  · rw [if_pos hmod]
    have hdvd : (min 5000 N) ∣ N := Nat.dvd_of_mod_eq_zero hmod
    have hmul : (min 5000 N) * (N / (min 5000 N)) = N := Nat.mul_div_cancel' hdvd
    rw [mul_comm] at hmul
    have hlt : (N - 2) / (min 5000 N) < N / (min 5000 N) := by
      rw [Nat.div_lt_iff_lt_mul hB]
      omega
    omega
  · rw [if_neg hmod]
    have hle : (N - 2) / (min 5000 N) ≤ N / (min 5000 N) :=
      Nat.div_le_div_right (by omega)
    omega

/-- C9, witness at `N = 2` with a pattern where every loop draw fails. -/
theorem loop_exits_by_count_witness :
    ∃ s, internalGenerate mFirstOnly 2 = GenResult.ok s ∧
      s.count = 0 ∧
      s.retries = (2 - 2) / (min 5000 2) + 1 ∧
      s.retries < budgetIters 2 :=
  loop_exits_by_count mFirstOnly 2 (by norm_num) rfl

/-- C10.  Invoked with `count = 0` (violating the `count ≥ 1` precondition),
`_internal_generate` does not return an empty table: it still performs the
single-row model call first, and then fails with `ZeroDivisionError` when
computing `max_retries = count / batch + 1`, because
`batch = min(5000, 0) = 0`. -/
theorem zero_count_div_by_zero (m : GenModel α) (h0 : m.ok 0 = true) :
    internalGenerate m 0 = GenResult.divByZero ∧
    callsMade (internalGenerate m 0) = 1 := by
  have h : internalGenerate m 0 = GenResult.divByZero := by
    unfold internalGenerate
    rw [if_neg (by simp [h0]), if_pos (by norm_num)]
  exact ⟨h, by rw [h]; rfl⟩

/-- C10, witness with the all-succeeding model. -/
theorem zero_count_div_by_zero_witness :
    internalGenerate mAllOk 0 = GenResult.divByZero ∧
    callsMade (internalGenerate mAllOk 0) = 1 :=
  zero_count_div_by_zero mAllOk rfl

/-- The `WeightedMetrics` value as constructed at the `__init__` call site:
a list of `(category, name)` criteria, their integer weights, and the
workspace path passed through.  (The evaluator behind it is an external
collaborator and out of scope.) -/
structure WeightedMetrics where
  metrics : List (String × String)
  weights : List ℤ
  workspace : String
  deriving DecidableEq

/-- The keyword arguments of `NormalizingFlowsPlugin.__init__`, with the
default values from the source signature.  All values already have the
annotated Python types (`int`, `float`, `bool`, `str`,
`Optional[WeightedMetrics]`), embedded as `ℤ`, `ℚ`, `Bool`, `String`,
`Option WeightedMetrics`. -/
structure InitArgs where
  n_iter : ℤ := 1000
  n_layers_hidden : ℤ := 1
  n_units_hidden : ℤ := 100
  batch_size : ℤ := 500
  num_transform_blocks : ℤ := 1
  dropout : ℚ := 1/10
  batch_norm : Bool := false
  num_bins : ℤ := 8
  tail_bound : ℚ := 3
  lr : ℚ := 1/1000
  apply_unconditional_transform : Bool := true
  base_distribution : String := "standard_normal"
  linear_transform_type : String := "permutation"
  base_transform_type : String := "rq-autoregressive"
  encoder_max_clusters : ℤ := 10
  tabular : Bool := true
  n_iter_min : ℤ := 100
  n_iter_print : ℤ := 50
  patience : ℤ := 5
  patience_metric : Option WeightedMetrics := none
  workspace : String := "workspace"
  compress_dataset : Bool := false
  sampling_patience : ℤ := 500
  random_state : ℤ := 0

/-- The plugin instance state after `__init__`: exactly the `self.x = x`
assignments of the source body (the core-plugin arguments `workspace`,
`compress_dataset`, `sampling_patience`, `random_state`, `device` are handed
to the base class, which is out of scope). -/
structure PluginState where
  n_iter : ℤ
  n_layers_hidden : ℤ
  n_units_hidden : ℤ
  batch_size : ℤ
  num_transform_blocks : ℤ
  dropout : ℚ
  batch_norm : Bool
  num_bins : ℤ
  tail_bound : ℚ
  apply_unconditional_transform : Bool
  lr : ℚ
  base_distribution : String
  linear_transform_type : String
  base_transform_type : String
  encoder_max_clusters : ℤ
  tabular : Bool
  n_iter_min : ℤ
  n_iter_print : ℤ
  patience : ℤ
  patience_metric : WeightedMetrics
  deriving DecidableEq

/-- The configuration error the specification's taxonomy names
(`ConfigurationError`); the embedded constructor shows it is never raised. -/
inductive ConfigError where
  | configurationError
  deriving DecidableEq

/-- The body of `NormalizingFlowsPlugin.__init__`: store every
hyperparameter unchanged; if `patience_metric` is `None`, build the default
`WeightedMetrics(metrics=[("detection", "detection_mlp")], weights=[1],
workspace=workspace)`. -/
def initState (a : InitArgs) : PluginState where
  n_iter := a.n_iter
  n_layers_hidden := a.n_layers_hidden
  n_units_hidden := a.n_units_hidden
  batch_size := a.batch_size
  num_transform_blocks := a.num_transform_blocks
  dropout := a.dropout
  batch_norm := a.batch_norm
  num_bins := a.num_bins
  tail_bound := a.tail_bound
  apply_unconditional_transform := a.apply_unconditional_transform
  lr := a.lr
  base_distribution := a.base_distribution
  linear_transform_type := a.linear_transform_type
  base_transform_type := a.base_transform_type
  encoder_max_clusters := a.encoder_max_clusters
  tabular := a.tabular
  n_iter_min := a.n_iter_min
  n_iter_print := a.n_iter_print
  patience := a.patience
  patience_metric :=
    match a.patience_metric with
    | none => ⟨[("detection", "detection_mlp")], [1], a.workspace⟩
    | some wm => wm

/-- `NormalizingFlowsPlugin(...)` as observed by a caller.  The
`@validate_arguments` decorator performs only pydantic *type* validation,
which cannot fail for arguments that already have the annotated types, and
the body of `__init__` contains no conditional `raise` and no range check:
construction always returns normally. -/
def NFInit (a : InitArgs) : Except ConfigError PluginState :=
  Except.ok (initState a)

/-- A literal hyperparameter value appearing in a categorical domain. -/
inductive HPLit where
  | int (n : ℤ)
  | real (q : ℚ)
  | bool (b : Bool)
  | str (s : String)
  deriving DecidableEq

/-- One axis of the declared hyperparameter search space
(`IntegerDistribution`, `FloatDistribution`, `CategoricalDistribution` from
the core distribution module; `step := none` when the call site does not
pass a step). -/
inductive HPDistribution where
  | integerDist (nm : String) (low high : ℤ) (step : Option ℤ)
  | floatDist (nm : String) (low high : ℚ)
  | categoricalDist (nm : String) (choices : List HPLit)
  deriving DecidableEq

/-- The `name=` field of an axis. -/
def HPDistribution.name : HPDistribution → String
  | .integerDist nm _ _ _ => nm
  | .floatDist nm _ _ => nm
  | .categoricalDist nm _ => nm

/-- `NormalizingFlowsPlugin.hyperparameter_space`: a `@staticmethod` whose
body is a single return of a literal list, hence independent of any instance
state. -/
def hyperparameter_space : List HPDistribution := [
  .integerDist "n_iter" 100 5000 (some 100),
  .integerDist "n_layers_hidden" 1 10 none,
  .integerDist "n_units_hidden" 10 100 none,
  .categoricalDist "batch_size" [.int 32, .int 64, .int 128, .int 256, .int 512],
  .floatDist "dropout" 0 (1/5),
  .categoricalDist "batch_norm" [.bool true, .bool false],
  .categoricalDist "lr" [.real (1/1000), .real (1/10000), .real (2/10000)],
  .categoricalDist "linear_transform_type" [.str "lu", .str "permutation", .str "svd"],
  .categoricalDist "base_transform_type"
    [.str "affine-coupling", .str "quadratic-coupling", .str "rq-coupling",
     .str "affine-autoregressive", .str "quadratic-autoregressive",
     .str "rq-autoregressive"]]

/-- The names of the explicit keyword parameters of
`NormalizingFlowsPlugin.__init__` (its signature additionally ends with
`**kwargs`, so unknown names are accepted too and forwarded to the base
class). -/
def constructorParams : List String :=
  ["n_iter", "n_layers_hidden", "n_units_hidden", "batch_size",
   "num_transform_blocks", "dropout", "batch_norm", "num_bins", "tail_bound",
   "lr", "apply_unconditional_transform", "base_distribution",
   "linear_transform_type", "base_transform_type", "encoder_max_clusters",
   "tabular", "n_iter_min", "n_iter_print", "patience", "patience_metric",
   "workspace", "compress_dataset", "sampling_patience", "random_state",
   "device"]

/-- C4, counterexample.  `dropout = 0.5` lies outside the declared domain
`Float[0, 0.2]`, yet construction succeeds and stores the value: no
configuration error is raised at construction time (only pydantic type
validation happens, and `0.5` is a well-typed float). -/
theorem eager_validation_counterexample :
    HPDistribution.floatDist "dropout" 0 (1/5) ∈ hyperparameter_space ∧
    ¬ ((1 : ℚ)/2 ≤ 1/5) ∧
    (NFInit { dropout := 1/2 }).isOk = true ∧
    (initState { dropout := 1/2 }).dropout = 1/2 := by
  refine ⟨?_, by norm_num, rfl, rfl⟩
  simp [hyperparameter_space]

/-- C4, amended.  Construction never raises for well-typed hyperparameter
values: the constructor performs no domain (range) validation, so a value
outside its declared domain — such as `dropout = 0.5` — is accepted and
stored unchanged. -/
theorem construction_never_raises (a : InitArgs) :
    (NFInit a).isOk = true ∧
    NFInit a = Except.ok (initState a) ∧
    (initState a).dropout = a.dropout :=
  ⟨rfl, rfl, rfl⟩

/-- C5.  `hyperparameter_space` is a static declaration (a literal list
independent of instance state) of exactly nine axes with the declared
domains, in order, and every axis name it returns is among the constructor's
keyword parameter names (round-trip property). -/
theorem hyperparameter_space_declaration :
    hyperparameter_space.length = 9 ∧
    hyperparameter_space = [
      .integerDist "n_iter" 100 5000 (some 100),
      .integerDist "n_layers_hidden" 1 10 none,
      .integerDist "n_units_hidden" 10 100 none,
      .categoricalDist "batch_size" [.int 32, .int 64, .int 128, .int 256, .int 512],
      .floatDist "dropout" 0 (1/5),
      .categoricalDist "batch_norm" [.bool true, .bool false],
      .categoricalDist "lr" [.real (1/1000), .real (1/10000), .real (2/10000)],
      .categoricalDist "linear_transform_type" [.str "lu", .str "permutation", .str "svd"],
      .categoricalDist "base_transform_type"
        [.str "affine-coupling", .str "quadratic-coupling", .str "rq-coupling",
         .str "affine-autoregressive", .str "quadratic-autoregressive",
         .str "rq-autoregressive"]] ∧
    (hyperparameter_space.map HPDistribution.name).all
      (fun nm => constructorParams.contains nm) = true := by
  refine ⟨rfl, rfl, ?_⟩
  decide

/-- C8.  If no `patience_metric` is supplied (`None`), the constructor builds
the default metric: exactly the one detection-family criterion
`("detection", "detection_mlp")` carrying the entire weight (`weights = [1]`);
a supplied metric is stored unchanged. -/
theorem patience_metric_defaulting (a : InitArgs) :
    (a.patience_metric = none →
      (initState a).patience_metric =
        ⟨[("detection", "detection_mlp")], [1], a.workspace⟩) ∧
    (∀ wm, a.patience_metric = some wm → (initState a).patience_metric = wm) := by
  constructor
  · intro h
    simp [initState, h]
  · intro wm h
    simp [initState, h]

/-- Default-constructed arguments (`NormalizingFlowsPlugin()`). -/
def argsDefault : InitArgs := {}

/-- Arguments supplying an explicit `patience_metric`. -/
def argsWithMetric : InitArgs :=
  { patience_metric := some ⟨[("sanity", "check")], [2], "ws"⟩ }

/-- C8, witness: the default construction stores the detection metric with
weight list `[1]`; an explicitly supplied metric is stored unchanged. -/
theorem patience_metric_defaulting_witness :
    (initState argsDefault).patience_metric =
      ⟨[("detection", "detection_mlp")], [1], argsDefault.workspace⟩ ∧
    (initState argsWithMetric).patience_metric = ⟨[("sanity", "check")], [2], "ws"⟩ :=
  ⟨(patience_metric_defaulting argsDefault).1 rfl,
   (patience_metric_defaulting argsWithMetric).2 _ rfl⟩
